import Mathlib

/-!
Shallow embedding of the personal-blog backend (Express + Mongoose).

Sources embedded:
  * `src/models/index.js` — user schema hooks (`pre('save')` token cleanup,
    `incLoginAttempts`, the `isLocked` virtual) and the comment/post schemas.
  * `src/routes/auth.js` — the auth route handlers (`/login`, `/verify-email`,
    `/reset-password`, `/change-password`) and the comment route handlers
    (`GET /post/:postId`, `POST /`, `PUT /:id/approve`, `DELETE /:id`,
    `buildCommentTree`).

Modelling conventions: timestamps are `Nat` milliseconds (`Date.now()`);
Mongo documents are Lean structures and a collection is a `List`;
`findOne`/`findById` is `List.find?`; `document.save()` replaces the
document with the matching `_id` and runs the schema's pre-save hook;
`bcrypt.hash`/`bcrypt.compare` are parameters (library primitives), as is
the generated `_id` of a newly inserted document.  Fields that no embedded
operation reads or writes (avatar, bio, ban flags, spam score, ip,
moderation metadata, SEO fields) are omitted from the structures.
Express-validator input validation and JWT encoding are upstream library
glue: handlers are embedded from the point where the request body has been
destructured, and a verified session is represented by the decoded user id.
-/

/-- User document, from `userSchema` in `src/models/index.js`. -/
structure User where
  id : Nat
  username : String
  email : String
  password : String
  isEmailVerified : Bool
  emailVerifyToken : Option String
  emailVerifyExpires : Option Nat
  passwordResetToken : Option String
  passwordResetExpires : Option Nat
  passwordChangedAt : Option Nat
  lastLoginAt : Option Nat
  loginAttempts : Nat
  lockUntil : Option Nat
  deriving Repr, DecidableEq

/-- Post document restricted to the fields the embedded routes touch
(`_id` and `commentCount`; the counter is an `Int` because `$inc` can
drive it below zero). -/
structure Post where
  id : Nat
  commentCount : Int
  deriving Repr, DecidableEq

/-- Comment document, from `commentSchema` in `src/models/index.js`. -/
structure Comment where
  id : Nat
  content : String
  authorName : String
  authorEmail : String
  post : Nat
  parentComment : Option Nat
  isApproved : Bool
  createdAt : Nat
  deriving Repr, DecidableEq

/-- The persistent store: one list per collection. -/
structure DB where
  users : List User
  posts : List Post
  comments : List Comment
  deriving Repr, DecidableEq

/-- JS test `expires && expires < Date.now()` used by the user pre-save
hook (a present `Date` is always truthy). -/
def tokenExpired (expires : Option Nat) (now : Nat) : Bool :=
  match expires with
  | some e => e < now
  | none => false

/-- Mongo filter `expires: { $gt: Date.now() }` used by the token lookups:
the field must be present and strictly in the future. -/
def tokenLive (expires : Option Nat) (now : Nat) : Bool :=
  match expires with
  | some e => now < e
  | none => false

/-- The `userSchema.pre('save')` hook (`src/models/index.js` lines 103-117):
clears the email-verification token pair if its expiry has passed, and the
password-reset token pair if its expiry has passed. -/
def preSave (u : User) (now : Nat) : User :=
  let u1 :=
    if tokenExpired u.emailVerifyExpires now then
      { u with emailVerifyToken := none, emailVerifyExpires := none }
    else u
  if tokenExpired u1.passwordResetExpires now then
    { u1 with passwordResetToken := none, passwordResetExpires := none }
  else u1

/-- The `isLocked` virtual (`src/models/index.js` lines 92-94):
`!!(this.lockUntil && this.lockUntil > Date.now())`. -/
def User.isLocked (u : User) (now : Nat) : Bool :=
  match u.lockUntil with
  | some l => now < l
  | none => false

/-- The `incLoginAttempts` instance method (`src/models/index.js` lines
120-144): reset if a previous lock expired, else increment the counter and
set a 2-hour lock when the new count reaches 5 and the user is not already
locked.  (Defined faithfully from the source; note that no route handler
ever invokes it.) -/
def incLoginAttempts (u : User) (now : Nat) : User :=
  if tokenExpired u.lockUntil now then
    { u with loginAttempts := 0, lockUntil := none }
  else
    let u' := { u with loginAttempts := u.loginAttempts + 1 }
    if 5 ≤ u.loginAttempts + 1 && !(u.isLocked now) then
      { u' with lockUntil := some (now + 2 * 60 * 60 * 1000) }
    else u'

/-- Persisting `user.save()`: every stored user with the same `_id` is
replaced by the saved document. -/
def setUser (users : List User) (u : User) : List User :=
  users.map (fun v => if v.id == u.id then u else v)

/-- Result of `POST /login` (`src/routes/auth.js` lines 304-384).
`invalidCredentials` is the single generic 400 response `'邮箱或密码错误'`
returned both when no account has the email and when the password does not
match; `success` carries the session TTL in days and the saved user. -/
inductive LoginResult where
  | invalidCredentials
  | emailNotVerified
  | success (ttlDays : Nat) (user : User)
  deriving Repr, DecidableEq

/-- The `POST /login` handler (`src/routes/auth.js` lines 304-384),
parameterised by `compare` standing for `bcrypt.compare`.  Look up by
email; generic failure if absent or if the password does not match; then
the unverified check; on success stamp `lastLoginAt`, save (running the
pre-save hook), and issue a token with `expiresIn` 30d when `rememberMe`
else 7d. -/
def login (compare : String → String → Bool) (db : DB)
    (email password : String) (rememberMe : Bool) (now : Nat) :
    LoginResult × DB :=
  match db.users.find? (fun u => u.email == email) with
  | none => (.invalidCredentials, db)
  | some user =>
    if compare password user.password then
      if user.isEmailVerified then
        let user' := preSave { user with lastLoginAt := some now } now
        (.success (if rememberMe then 30 else 7) user',
          { db with users := setUser db.users user' })
      else (.emailNotVerified, db)
    else (.invalidCredentials, db)

/-- Result of the one-time-token routes: `invalidOrExpired` is the 400
response returned when no account matches a live token. -/
inductive TokenResult where
  | invalidOrExpired
  | success (user : User)
  deriving Repr, DecidableEq

/-- The Mongo lookup in `POST /verify-email`:
`User.findOne({ emailVerifyToken: token, emailVerifyExpires: { $gt: Date.now() } })`. -/
def findUserByVerifyToken (db : DB) (token : String) (now : Nat) : Option User :=
  db.users.find? (fun u =>
    u.emailVerifyToken == some token && tokenLive u.emailVerifyExpires now)

/-- The `POST /verify-email` handler (`src/routes/auth.js` lines 156-220):
look up a live token; on success set the verified flag, clear the token
pair, and save. -/
def verifyEmail (db : DB) (token : String) (now : Nat) : TokenResult × DB :=
  match findUserByVerifyToken db token now with
  | none => (.invalidOrExpired, db)
  | some user =>
    let user' := preSave
      { user with isEmailVerified := true,
                  emailVerifyToken := none, emailVerifyExpires := none } now
    (.success user', { db with users := setUser db.users user' })

/-- The Mongo lookup in `POST /reset-password`:
`User.findOne({ passwordResetToken: token, passwordResetExpires: { $gt: Date.now() } })`. -/
def findUserByResetToken (db : DB) (token : String) (now : Nat) : Option User :=
  db.users.find? (fun u =>
    u.passwordResetToken == some token && tokenLive u.passwordResetExpires now)

/-- Password format policy shared by registration, reset and change:
at least 6 characters, and the regex `(?=.*[a-zA-Z])(?=.*\d)` — at least
one ASCII letter and one ASCII digit. -/
def passwordPolicy (p : String) : Bool :=
  decide (6 ≤ p.data.length) && p.data.any Char.isAlpha &&
    p.data.any Char.isDigit

/-- Result of `POST /reset-password`. -/
inductive ResetResult where
  | validationError
  | invalidOrExpired
  | success (user : User)
  deriving Repr, DecidableEq

/-- The `POST /reset-password` handler (`src/routes/auth.js` lines
462-537), parameterised by `hash` standing for `bcrypt.hash`: validate the
new password, look up a live reset token, then store the new hash, clear
the token pair, stamp `passwordChangedAt`, and save. -/
def resetPassword (hash : String → String) (db : DB)
    (token password : String) (now : Nat) : ResetResult × DB :=
  if !passwordPolicy password then (.validationError, db)
  else
    match findUserByResetToken db token now with
    | none => (.invalidOrExpired, db)
    | some user =>
      let user' := preSave
        { user with password := hash password,
                    passwordResetToken := none, passwordResetExpires := none,
                    passwordChangedAt := some now } now
      (.success user', { db with users := setUser db.users user' })

/-- Result of `POST /change-password`. -/
inductive ChangeResult where
  | userNotFound
  | wrongCurrentPassword
  | validationError
  | success (user : User)
  deriving Repr, DecidableEq

/-- The `POST /change-password` handler (`src/routes/auth.js` lines
540-606); the verified session is the decoded `userId`.  Find the user,
check the current password with `bcrypt.compare`, validate the new
password (length, then letter-and-digit regex), then store the new hash,
stamp `passwordChangedAt`, and save.  The reset-token fields are not
touched by the handler; only the pre-save hook may clear them, and only
when expired. -/
def changePassword (compare : String → String → Bool) (hash : String → String)
    (db : DB) (userId : Nat) (currentPassword newPassword : String) (now : Nat) :
    ChangeResult × DB :=
  match db.users.find? (fun u => u.id == userId) with
  | none => (.userNotFound, db)
  | some user =>
    if !compare currentPassword user.password then (.wrongCurrentPassword, db)
    else if decide (newPassword.data.length < 6) then (.validationError, db)
    else if !(newPassword.data.any Char.isAlpha && newPassword.data.any Char.isDigit) then
      (.validationError, db)
    else
      let user' := preSave
        { user with password := hash newPassword,
                    passwordChangedAt := some now } now
      (.success user', { db with users := setUser db.users user' })

/-- Persisting `comment.save()` for an existing comment: replace the
stored document with the matching `_id`. -/
def setComment (comments : List Comment) (c : Comment) : List Comment :=
  comments.map (fun x => if x.id == c.id then c else x)

/-- Mongo `Post.findByIdAndUpdate(postId, { $inc: { commentCount: n } })`. -/
def incCommentCount (posts : List Post) (postId : Nat) (n : Int) : List Post :=
  posts.map (fun p =>
    if p.id == postId then { p with commentCount := p.commentCount + n } else p)

/-- Result of `POST /` on the comments router. -/
inductive SubmitResult where
  | postNotFound
  | parentNotFound
  | created (c : Comment)
  deriving Repr, DecidableEq

/-- The comment-submission handler (`src/routes/auth.js` comments router,
`router.post('/')`): check the post exists (400 `'文章不存在'`), check a
supplied parent comment exists (400 `'父评论不存在'` — existence only, the
parent's own `post` field is never compared with the submitted `post`),
then insert the comment with `isApproved := false` and `$inc` the post's
`commentCount` by 1.  `newId` stands for the generated `_id` and `now` for
the insertion timestamp. -/
def submitComment (db : DB) (content authorName authorEmail : String)
    (postId : Nat) (parent : Option Nat) (newId now : Nat) :
    SubmitResult × DB :=
  match db.posts.find? (fun p => p.id == postId) with
  | none => (.postNotFound, db)
  | some _ =>
    let doCreate : SubmitResult × DB :=
      let c : Comment :=
        { id := newId, content := content, authorName := authorName,
          authorEmail := authorEmail, post := postId, parentComment := parent,
          isApproved := false, createdAt := now }
      (.created c,
        { db with comments := db.comments ++ [c],
                  posts := incCommentCount db.posts postId 1 })
    match parent with
    | some pid =>
      match db.comments.find? (fun x => x.id == pid) with
      | none => (.parentNotFound, db)
      | some _ => doCreate
    | none => doCreate

/-- Result of `PUT /:id/approve`. -/
inductive ApproveResult where
  | notFound
  | approved
  deriving Repr, DecidableEq

/-- The admin approval handler (`router.put('/:id/approve')`): 404 if the
comment is missing, otherwise set `isApproved := true` and save. -/
def approveComment (db : DB) (commentId : Nat) : ApproveResult × DB :=
  match db.comments.find? (fun x => x.id == commentId) with
  | none => (.notFound, db)
  | some c =>
    let c' := { c with isApproved := true }
    (.approved, { db with comments := setComment db.comments c' })

/-- Result of `DELETE /:id`. -/
inductive DeleteResult where
  | notFound
  | deleted
  deriving Repr, DecidableEq

/-- The admin delete handler (`router.delete('/:id')`), statement for
statement: find the comment (404 if missing); `deleteMany` every comment
whose `parentComment` is the target id; `findByIdAndDelete` the comment
itself; THEN compute `deletedCount` as
`countDocuments({ parentComment: id }) + 1` — a query run against the
collection from which the children have already been removed; `$inc` the
post's `commentCount` by `-deletedCount`. -/
def deleteComment (db : DB) (commentId : Nat) : DeleteResult × DB :=
  match db.comments.find? (fun x => x.id == commentId) with
  | none => (.notFound, db)
  | some comment =>
    let afterChildren :=
      db.comments.filter (fun c => !(c.parentComment == some commentId))
    let afterSelf := afterChildren.filter (fun c => !(c.id == commentId))
    let deletedCount : Int :=
      (afterSelf.countP (fun c => c.parentComment == some commentId) : Int) + 1
    (.deleted,
      { db with comments := afterSelf,
                posts := incCommentCount db.posts comment.post (-deletedCount) })

/-- Node of the assembled comment tree: the comment together with its
`replies` array. -/
inductive CommentNode where
  | node (comment : Comment) (replies : List CommentNode)

/-- The comment a tree node carries. -/
def CommentNode.head : CommentNode → Comment
  | .node c _ => c

/-- The replies of a tree node. -/
def CommentNode.replies : CommentNode → List CommentNode
  | .node _ rs => rs

/-- Denotation of one map node after `buildCommentTree`'s second pass: in
the JS code every node is shared by reference, so a node's final `replies`
array holds (in iteration order) the map node of every comment of the page
whose `parentComment` is this node's id, each with its own replies nested
transitively.  `fuel` bounds the recursion depth; `fuel = cs.length`
suffices for any page with distinct ids, since a chain of parent edges
inside the page can then never revisit a comment. -/
def buildNode : Nat → List Comment → Comment → CommentNode
  | 0, _, c => .node c []
  | fuel + 1, cs, c =>
    .node c ((cs.filter (fun x => x.parentComment == some c.id)).map
      (buildNode fuel cs))

/-- The `buildCommentTree` helper (`src/routes/auth.js` comments router,
lines 891-916): only comments with a falsy `parentComment` are emitted as
roots (a comment whose parent is not in the page is appended nowhere
reachable and is dropped); replies nest under any parent present in the
page. -/
def buildCommentTree (cs : List Comment) : List CommentNode :=
  (cs.filter (fun c => c.parentComment == none)).map
    (buildNode cs.length cs)

/-- Newest-first order used by `.sort({ createdAt: -1 })`. -/
def newestFirst (a b : Comment) : Prop := b.createdAt ≤ a.createdAt

instance : DecidableRel newestFirst := fun a b =>
  inferInstanceAs (Decidable (b.createdAt ≤ a.createdAt))

instance : IsTotal Comment newestFirst :=
  ⟨fun a b => Nat.le_total b.createdAt a.createdAt⟩

instance : IsTrans Comment newestFirst :=
  ⟨fun _ _ _ h1 h2 => Nat.le_trans h2 h1⟩

/-- The flat page of `GET /post/:postId`: the approved comments of the
post, sorted newest-first by `createdAt`, with `.skip((page-1)*limit)` and
`.limit(limit)` applied to the flat list (the sort is modelled as a stable
sort, matching Mongo's order on the indexed field). -/
def approvedPage (db : DB) (postId page limit : Nat) : List Comment :=
  let approved :=
    db.comments.filter (fun c => c.post == postId && c.isApproved)
  let sorted := approved.insertionSort newestFirst
  (sorted.drop ((page - 1) * limit)).take limit

/-- The `GET /post/:postId` handler (`src/routes/auth.js` comments router,
lines 699-743): 404 (`none`) if the post does not exist; otherwise query
the approved comments of the post sorted newest-first with skip/limit
pagination, and only then assemble the tree from that flat page. -/
def listForPost (db : DB) (postId page limit : Nat) :
    Option (List CommentNode) :=
  match db.posts.find? (fun p => p.id == postId) with
  | none => none
  | some _ => some (buildCommentTree (approvedPage db postId page limit))

/-! ## Helper lemmas and concrete fixtures -/

theorem find?_ext {α : Type} (l : List α) {p q : α → Bool}
    (h : ∀ x, p x = q x) : l.find? p = l.find? q := by
  induction l with
  | nil => rfl
  | cons a l ih => simp only [List.find?, h a, ih]

theorem preSave_id (v : User) (now : Nat) : (preSave v now).id = v.id := by
  unfold preSave
  dsimp only
  split <;> split <;> rfl

theorem preSave_lastLoginAt (v : User) (now : Nat) :
    (preSave v now).lastLoginAt = v.lastLoginAt := by
  unfold preSave
  dsimp only
  split <;> split <;> rfl

theorem preSave_verify_none (v : User) (now : Nat)
    (h1 : v.emailVerifyToken = none) (h2 : v.emailVerifyExpires = none) :
    (preSave v now).emailVerifyToken = none ∧
    (preSave v now).emailVerifyExpires = none := by
  unfold preSave
  dsimp only
  split <;> split <;> simp_all

theorem preSave_reset_none (v : User) (now : Nat)
    (h1 : v.passwordResetToken = none) (h2 : v.passwordResetExpires = none) :
    (preSave v now).passwordResetToken = none ∧
    (preSave v now).passwordResetExpires = none := by
  unfold preSave
  dsimp only
  split <;> split <;> simp_all [tokenExpired]

theorem preSave_reset_preserved (v : User) (now : Nat)
    (h : tokenExpired v.passwordResetExpires now = false) :
    (preSave v now).passwordResetToken = v.passwordResetToken ∧
    (preSave v now).passwordResetExpires = v.passwordResetExpires := by
  unfold preSave
  dsimp only
  split <;> simp_all [tokenExpired]

theorem buildNode_head (fuel : Nat) (cs : List Comment) (c : Comment) :
    (buildNode fuel cs c).head = c := by
  cases fuel <;> rfl

/-- Concrete instantiation of the `bcrypt.compare` parameter used by the
closed witnesses: a password matches a stored hash iff they are equal. -/
def eqCompare : String → String → Bool := fun p h => p == h

/-- Concrete instantiation of the `bcrypt.hash` parameter used by the
closed witnesses. -/
def idHash : String → String := fun s => s

/-- Fixture user: verified, no tokens, no lockout. -/
def mkUser (i : Nat) : User :=
  { id := i, username := "u", email := "a@b.c", password := "pw1",
    isEmailVerified := true, emailVerifyToken := none,
    emailVerifyExpires := none, passwordResetToken := none,
    passwordResetExpires := none, passwordChangedAt := none,
    lastLoginAt := none, loginAttempts := 0, lockUntil := none }

/-- Fixture comment. -/
def mkComment (i postId : Nat) (parent : Option Nat) (app : Bool) (t : Nat) :
    Comment :=
  { id := i, content := "c", authorName := "n", authorEmail := "e@x.y",
    post := postId, parentComment := parent, isApproved := app,
    createdAt := t }

/-! ## C1 — cascade delete and the comment counter -/

/-- Fixture for C1: one post whose counter is 3, holding a root comment
(id 10) with two direct replies (ids 11 and 12). -/
def dbDel : DB :=
  { users := [], posts := [{ id := 1, commentCount := 3 }],
    comments := [mkComment 10 1 none true 1, mkComment 11 1 (some 10) true 2,
                 mkComment 12 1 (some 10) true 3] }

/-- C1: the claim says deleting a comment with k direct children decrements
the post's counter by k + 1 (here k = 2, so by 3).  The code instead
always decrements by 1: it counts the direct children only AFTER
`deleteMany` has already removed them, so `deletedCount` is always 0 + 1.
At the failing input the comment and both direct children are indeed
removed, but the counter goes from 3 to 2 instead of to 0. -/
theorem deleteComment_counter_bug :
    dbDel.comments.countP (fun c => c.parentComment == some 10) = 2 ∧
    deleteComment dbDel 10 =
      (.deleted,
        { users := [], posts := [{ id := 1, commentCount := 2 }],
          comments := [] }) ∧
    (2 : Int) ≠ 3 - 3 := by
  decide

/-! ## C2 — login lockout -/

/-- Fixture for C2: a store holding one verified user whose stored
password matches `"pw1"` under `eqCompare`. -/
def dbVer : DB := { users := [mkUser 1], posts := [], comments := [] }

/-- One failed login attempt (wrong password) against the store, at time 5. -/
def stepFail (d : DB) : DB :=
  (login eqCompare d "a@b.c" "wrong" false 5).2

/-- Fixture for C2: the same user but with `lockUntil` set far in the
future, i.e. locked according to the schema's `isLocked` virtual. -/
def lockedUser : User := { mkUser 1 with lockUntil := some 999999999 }

def dbLocked : DB := { users := [lockedUser], posts := [], comments := [] }

/-- C2: the claim says 5 consecutive failed attempts lock the account and
a locked account cannot log in.  The code defines the full lockout
machinery on the schema (`incLoginAttempts`: 5 attempts, 2-hour lock —
fourth conjunct shows it would indeed lock), but the login handler never
invokes it and never consults `lockUntil`: a failed attempt returns the
generic error with the store entirely unchanged (first two conjuncts), so
after any number of consecutive failures `loginAttempts` is still 0 and
the account is unlocked (third conjunct); and a user whose `lockUntil` is
in the future logs in successfully with the correct password (last
conjuncts). -/
theorem login_never_locks_bug :
    login eqCompare dbVer "a@b.c" "wrong" false 5 =
      (.invalidCredentials, dbVer) ∧
    (∀ n : Nat, stepFail^[n] dbVer = dbVer) ∧
    ((stepFail^[5] dbVer).users.map (fun u => u.loginAttempts) = [0] ∧
      (stepFail^[5] dbVer).users.map (fun u => u.isLocked 5) = [false]) ∧
    ((fun u => incLoginAttempts u 5)^[5] (mkUser 1)).lockUntil =
      some (5 + 2 * 60 * 60 * 1000) ∧
    lockedUser.isLocked 5 = true ∧
    (login eqCompare dbLocked "a@b.c" "pw1" false 5).1 =
      .success 7 (preSave { lockedUser with lastLoginAt := some 5 } 5) := by
  refine ⟨by decide, fun n => Function.iterate_fixed (by decide) n,
    ⟨by decide, by decide⟩, by decide, by decide, by decide⟩

/-! ## C3 — parent/child edges across posts -/

/-- Fixture for C3: two posts (ids 1 and 2); the only comment (id 10)
belongs to post 1. -/
def dbTwoPosts : DB :=
  { users := [],
    posts := [{ id := 1, commentCount := 1 }, { id := 2, commentCount := 0 }],
    comments := [mkComment 10 1 none true 1] }

/-- C3 counterexample: the claim says a stored reply always belongs to the
same post as its parent, enforced at submission.  Submitting a comment on
post 2 whose `parentComment` is comment 10 — which belongs to post 1 — is
accepted and stored, producing a parent/child edge that crosses posts. -/
theorem submit_cross_post_accepted :
    (submitComment dbTwoPosts "c" "n" "e@x.y" 2 (some 10) 99 50).1 =
      .created (mkComment 99 2 (some 10) false 50) ∧
    ((submitComment dbTwoPosts "c" "n" "e@x.y" 2 (some 10) 99 50).2.comments.find?
        (fun x => x.id == 99)).map (fun c => c.post) = some 2 ∧
    (dbTwoPosts.comments.find? (fun x => x.id == 10)).map (fun c => c.post) =
      some 1 ∧
    (2 : Nat) ≠ 1 := by
  decide

/-- C3 amended: submission enforces only that the parent comment exists,
never that it belongs to the submitted post.  Whenever the post exists and
some comment has the supplied parent id, the reply is accepted and stored
with the submitted post id — whatever post the parent belongs to — so a
parent/child edge may cross posts. -/
theorem submit_parent_existence_only (db : DB)
    (content authorName authorEmail : String) (postId pid newId now : Nat)
    (p : Post) (pc : Comment)
    (hp : db.posts.find? (fun x => x.id == postId) = some p)
    (hpc : db.comments.find? (fun x => x.id == pid) = some pc) :
    submitComment db content authorName authorEmail postId (some pid) newId now =
      (.created
        { id := newId, content := content, authorName := authorName,
          authorEmail := authorEmail, post := postId,
          parentComment := some pid, isApproved := false, createdAt := now },
        { db with
            comments := db.comments ++
              [{ id := newId, content := content, authorName := authorName,
                 authorEmail := authorEmail, post := postId,
                 parentComment := some pid, isApproved := false,
                 createdAt := now }],
            posts := incCommentCount db.posts postId 1 }) := by
  unfold submitComment
  simp only [hp, hpc]

theorem submit_parent_existence_only_witness :
    submitComment dbTwoPosts "c" "n" "e@x.y" 2 (some 10) 99 50 =
      (.created (mkComment 99 2 (some 10) false 50),
        { dbTwoPosts with
            comments := dbTwoPosts.comments ++ [mkComment 99 2 (some 10) false 50],
            posts := incCommentCount dbTwoPosts.posts 2 1 }) :=
  submit_parent_existence_only dbTwoPosts "c" "n" "e@x.y" 2 10 99 50
    { id := 2, commentCount := 0 } (mkComment 10 1 none true 1)
    (by decide) (by decide)

/-! ## C7 — submission with a nonexistent parent -/

/-- C7: submitting a comment whose `parentCommentId` references a
nonexistent comment fails with a not-found error (the post check or the
parent check, both 400-with-message responses), creates no comment, and
leaves the store — in particular the post's `commentCount` — unchanged. -/
theorem submit_missing_parent_noop (db : DB)
    (content authorName authorEmail : String) (postId pid newId now : Nat)
    (hmiss : db.comments.find? (fun x => x.id == pid) = none) :
    (submitComment db content authorName authorEmail postId (some pid) newId now).2
      = db ∧
    ((submitComment db content authorName authorEmail postId (some pid) newId now).1
        = .parentNotFound ∨
      (submitComment db content authorName authorEmail postId (some pid) newId now).1
        = .postNotFound) := by
  unfold submitComment
  cases hp : db.posts.find? (fun x => x.id == postId) with
  | none => exact ⟨rfl, Or.inr rfl⟩
  | some p => simp only [hmiss]; exact ⟨trivial, Or.inl trivial⟩

theorem submit_missing_parent_noop_witness :
    (submitComment dbTwoPosts "c" "n" "e@x.y" 1 (some 77) 99 50).2 = dbTwoPosts ∧
    ((submitComment dbTwoPosts "c" "n" "e@x.y" 1 (some 77) 99 50).1
        = .parentNotFound ∨
      (submitComment dbTwoPosts "c" "n" "e@x.y" 1 (some 77) 99 50).1
        = .postNotFound) :=
  submit_missing_parent_noop dbTwoPosts "c" "n" "e@x.y" 1 77 99 50 (by decide)

/-! ## C9 — approval idempotence -/

theorem approved_update_self (c : Comment) (h : c.isApproved = true) :
    { c with isApproved := true } = c := by
  cases c
  simp_all

theorem find?_setComment (l : List Comment) (c0 c1 : Comment) (i : Nat)
    (h : l.find? (fun x => x.id == i) = some c0) (hid : c1.id = i) :
    (setComment l c1).find? (fun x => x.id == i) =
      some (if c0.id == c1.id then c1 else c0) := by
  unfold setComment
  rw [List.find?_map]
  have hext : l.find?
      ((fun x => x.id == i) ∘ (fun x => if x.id == c1.id then c1 else x)) =
      l.find? (fun x => x.id == i) := by
    apply find?_ext
    intro x
    by_cases hx : (x.id == c1.id) = true
    · have hx' : x.id = c1.id := by simpa using hx
      simp [Function.comp, hx, hx', hid]
    · simp [Function.comp, hx]
  rw [hext, h]
  rfl

theorem setComment_setComment (l : List Comment) (c1 : Comment) :
    setComment (setComment l c1) c1 = setComment l c1 := by
  unfold setComment
  rw [List.map_map]
  apply List.map_congr_left
  intro x _
  by_cases hx : (x.id == c1.id) = true
  · simp [Function.comp, hx]
  · simp [Function.comp, hx]

/-- C9: the admin approve operation is idempotent.  On a missing id it
fails with the 404 not-found response and leaves the store unchanged; on
an existing id the first call succeeds, and a second call on the same id
succeeds again (no error) and leaves the store exactly as after the first
call, with the approval flag still true. -/
theorem approveComment_idempotent (db : DB) (commentId : Nat) :
    (db.comments.find? (fun x => x.id == commentId) = none →
      approveComment db commentId = (.notFound, db)) ∧
    (∀ c, db.comments.find? (fun x => x.id == commentId) = some c →
      approveComment db commentId =
        (.approved,
          { db with comments := setComment db.comments { c with isApproved := true } }) ∧
      ((approveComment db commentId).2.comments.find?
          (fun x => x.id == commentId)).map (fun x => x.isApproved) = some true ∧
      approveComment (approveComment db commentId).2 commentId =
        (.approved, (approveComment db commentId).2)) := by
  refine ⟨fun h => ?_, fun c hc => ?_⟩
  · unfold approveComment
    rw [h]
  · have hcid : c.id = commentId := by simpa using List.find?_some hc
    have h1 : approveComment db commentId =
        (.approved,
          { db with comments := setComment db.comments { c with isApproved := true } }) := by
      unfold approveComment
      rw [hc]
    have hfind2 : (setComment db.comments { c with isApproved := true }).find?
        (fun x => x.id == commentId) = some { c with isApproved := true } := by
      have := find?_setComment db.comments c { c with isApproved := true }
        commentId hc hcid
      simpa [hcid] using this
    refine ⟨h1, ?_, ?_⟩
    · rw [h1]
      simp [hfind2]
    · rw [h1]
      unfold approveComment
      rw [hfind2]
      show ((ApproveResult.approved,
        { db with comments :=
            (setComment (setComment db.comments { c with isApproved := true })
              { c with isApproved := true }) }) : ApproveResult × DB) = _
      rw [setComment_setComment]

theorem approveComment_idempotent_witness :
    approveComment dbTwoPosts 10 =
      (.approved,
        { dbTwoPosts with
            comments := setComment dbTwoPosts.comments
              { (mkComment 10 1 none true 1) with isApproved := true } }) ∧
    ((approveComment dbTwoPosts 10).2.comments.find?
        (fun x => x.id == 10)).map (fun x => x.isApproved) = some true ∧
    approveComment (approveComment dbTwoPosts 10).2 10 =
      (.approved, (approveComment dbTwoPosts 10).2) :=
  (approveComment_idempotent dbTwoPosts 10).2 (mkComment 10 1 none true 1)
    (by decide)

/-! ## C5 — login error discipline and session TTL -/

/-- C5: a login with an unknown email and a login with a wrong password
produce the exact same result — the single generic invalid-credentials
error with the store untouched; a matching password on an unverified
account yields the email-not-verified error (never invalid credentials);
and a successful login stamps `lastLoginAt` with the current time, saves
the user, and issues a session whose TTL is 30 days when `rememberMe` is
set and 7 days otherwise. -/
theorem login_spec (compare : String → String → Bool) (db : DB)
    (email password : String) (rememberMe : Bool) (now : Nat) :
    (db.users.find? (fun v => v.email == email) = none →
      login compare db email password rememberMe now = (.invalidCredentials, db)) ∧
    (∀ u, db.users.find? (fun v => v.email == email) = some u →
      compare password u.password = false →
      login compare db email password rememberMe now = (.invalidCredentials, db)) ∧
    (∀ u, db.users.find? (fun v => v.email == email) = some u →
      compare password u.password = true → u.isEmailVerified = false →
      login compare db email password rememberMe now = (.emailNotVerified, db)) ∧
    (∀ u, db.users.find? (fun v => v.email == email) = some u →
      compare password u.password = true → u.isEmailVerified = true →
      login compare db email password rememberMe now =
        (.success (if rememberMe then 30 else 7)
            (preSave { u with lastLoginAt := some now } now),
          { db with users :=
              setUser db.users (preSave { u with lastLoginAt := some now } now) }) ∧
      (preSave { u with lastLoginAt := some now } now).lastLoginAt = some now) := by
  refine ⟨fun h => ?_, fun u hu hcmp => ?_, fun u hu hcmp hver => ?_,
    fun u hu hcmp hver => ⟨?_, ?_⟩⟩
  · unfold login
    rw [h]
  · unfold login
    rw [hu]
    simp [hcmp]
  · unfold login
    rw [hu]
    simp [hcmp, hver]
  · unfold login
    rw [hu]
    simp [hcmp, hver]
  · rw [preSave_lastLoginAt]

/-- Fixture for C5: the same account as `dbVer` but not yet verified. -/
def dbUnver : DB :=
  { users := [{ mkUser 1 with isEmailVerified := false }], posts := [],
    comments := [] }

/-- The saved user after the successful witness login below. -/
def loggedInUser : User := preSave { mkUser 1 with lastLoginAt := some 5 } 5

theorem login_spec_witness :
    login eqCompare dbVer "zz@b.c" "pw1" false 5 = (.invalidCredentials, dbVer) ∧
    login eqCompare dbVer "a@b.c" "wrong" false 5 = (.invalidCredentials, dbVer) ∧
    login eqCompare dbUnver "a@b.c" "pw1" false 5 = (.emailNotVerified, dbUnver) ∧
    (login eqCompare dbVer "a@b.c" "pw1" true 5 =
      (.success 30 loggedInUser,
        { dbVer with users := setUser dbVer.users loggedInUser }) ∧
      loggedInUser.lastLoginAt = some 5) :=
  ⟨(login_spec eqCompare dbVer "zz@b.c" "pw1" false 5).1 (by decide),
   (login_spec eqCompare dbVer "a@b.c" "wrong" false 5).2.1 (mkUser 1)
     (by decide) (by decide),
   (login_spec eqCompare dbUnver "a@b.c" "pw1" false 5).2.2.1
     { mkUser 1 with isEmailVerified := false } (by decide) (by decide) (by decide),
   (login_spec eqCompare dbVer "a@b.c" "pw1" true 5).2.2.2 (mkUser 1)
     (by decide) (by decide) (by decide)⟩

/-! ## C4 — one-time tokens are single-use -/

theorem find?_setUser_none (users : List User) (u : User) (q : User → Bool)
    (hqu : q u = false)
    (hother : ∀ v ∈ users, v.id ≠ u.id → q v = false) :
    (setUser users u).find? q = none := by
  rw [List.find?_eq_none]
  intro x hx
  unfold setUser at hx
  obtain ⟨v, hv, rfl⟩ := List.mem_map.mp hx
  by_cases hvid : (v.id == u.id) = true
  · simp [hvid, hqu]
  · have hne : v.id ≠ u.id := by simpa using hvid
    simp [hvid, hother v hv hne]

/-- C4: once a one-time token is consumed by a successful email
verification or password reset, the account's token and expiry fields are
cleared, and — provided the consumed account was the only holder of that
token value — a second use of the same token value fails with the
invalid-or-expired error and leaves the store unchanged.  (For the reset
route the second request must itself pass the password-format validation,
which runs before the token lookup.) -/
theorem oneTimeToken_single_use :
    (∀ (db : DB) (t : String) (now now' : Nat) (u : User) (db' : DB),
      verifyEmail db t now = (.success u, db') →
      (∀ v ∈ db.users, v.emailVerifyToken = some t → v.id = u.id) →
      u.emailVerifyToken = none ∧ u.emailVerifyExpires = none ∧
      verifyEmail db' t now' = (.invalidOrExpired, db')) ∧
    (∀ (hash : String → String) (db : DB) (t p p' : String) (now now' : Nat)
      (u : User) (db' : DB),
      resetPassword hash db t p now = (.success u, db') →
      passwordPolicy p' = true →
      (∀ v ∈ db.users, v.passwordResetToken = some t → v.id = u.id) →
      u.passwordResetToken = none ∧ u.passwordResetExpires = none ∧
      resetPassword hash db' t p' now' = (.invalidOrExpired, db')) := by
  constructor
  · intro db t now now' u db' h huniq
    unfold verifyEmail at h
    cases hr : findUserByVerifyToken db t now with
    | none =>
      rw [hr] at h
      exact absurd h (by simp)
    | some u0 =>
      rw [hr] at h
      simp only [Prod.mk.injEq, TokenResult.success.injEq] at h
      obtain ⟨hu, hdb⟩ := h
      have hunone : u.emailVerifyToken = none ∧ u.emailVerifyExpires = none := by
        rw [← hu]
        exact preSave_verify_none _ now rfl rfl
      have hid : u.id = u0.id := by rw [← hu, preSave_id]
      rw [hu] at hdb
      subst hdb
      refine ⟨hunone.1, hunone.2, ?_⟩
      have hfind2 : findUserByVerifyToken
          { db with users := setUser db.users u } t now' = none := by
        unfold findUserByVerifyToken
        apply find?_setUser_none
        · simp [hunone.1]
        · intro v hv hne
          by_cases hvt : v.emailVerifyToken = some t
          · exact absurd (huniq v hv hvt) hne
          · simp [hvt]
      unfold verifyEmail
      rw [hfind2]
  · intro hash db t p p' now now' u db' h hp' huniq
    unfold resetPassword at h
    cases hpol : passwordPolicy p with
    | false =>
      rw [hpol] at h
      exact absurd h (by simp)
    | true =>
      rw [hpol] at h
      simp only [Bool.not_true, if_false, Bool.false_eq_true, ite_false] at h
      cases hr : findUserByResetToken db t now with
      | none =>
        rw [hr] at h
        exact absurd h (by simp)
      | some u0 =>
        rw [hr] at h
        simp only [Prod.mk.injEq, ResetResult.success.injEq] at h
        obtain ⟨hu, hdb⟩ := h
        have hunone : u.passwordResetToken = none ∧
            u.passwordResetExpires = none := by
          rw [← hu]
          exact preSave_reset_none _ now rfl rfl
        rw [hu] at hdb
        subst hdb
        refine ⟨hunone.1, hunone.2, ?_⟩
        have hfind2 : findUserByResetToken
            { db with users := setUser db.users u } t now' = none := by
          unfold findUserByResetToken
          apply find?_setUser_none
          · simp [hunone.1]
          · intro v hv hne
            by_cases hvt : v.passwordResetToken = some t
            · exact absurd (huniq v hv hvt) hne
            · simp [hvt]
        unfold resetPassword
        rw [hp', hfind2]
        simp

/-- Fixture for C4: an unverified account holding a live email-verification
token `"vt"` and a live password-reset token `"rt"` (both expiring at
time 100). -/
def tokenUser : User :=
  { mkUser 1 with
    isEmailVerified := false,
    emailVerifyToken := some "vt",
    emailVerifyExpires := some 100,
    passwordResetToken := some "rt",
    passwordResetExpires := some 100 }

def dbToken : DB := { users := [tokenUser], posts := [], comments := [] }

/-- The account after the witness verification consumed `"vt"` at time 5. -/
def verifiedTokenUser : User :=
  { tokenUser with
    isEmailVerified := true,
    emailVerifyToken := none,
    emailVerifyExpires := none }

def dbAfterVerify : DB :=
  { dbToken with users := setUser dbToken.users verifiedTokenUser }

/-- The account after the witness password reset consumed `"rt"` at time 5. -/
def resetTokenUser : User :=
  { tokenUser with
    password := "newpw1",
    passwordResetToken := none,
    passwordResetExpires := none,
    passwordChangedAt := some 5 }

def dbAfterReset : DB :=
  { dbToken with users := setUser dbToken.users resetTokenUser }

theorem oneTimeToken_single_use_witness :
    (verifiedTokenUser.emailVerifyToken = none ∧
      verifiedTokenUser.emailVerifyExpires = none ∧
      verifyEmail dbAfterVerify "vt" 7 = (.invalidOrExpired, dbAfterVerify)) ∧
    (resetTokenUser.passwordResetToken = none ∧
      resetTokenUser.passwordResetExpires = none ∧
      resetPassword idHash dbAfterReset "rt" "other2pw" 7 =
        (.invalidOrExpired, dbAfterReset)) :=
  ⟨oneTimeToken_single_use.1 dbToken "vt" 5 7 verifiedTokenUser dbAfterVerify
      (by decide) (by decide),
   oneTimeToken_single_use.2 idHash dbToken "rt" "newpw1" "other2pw" 5 7
      resetTokenUser dbAfterReset (by decide) (by decide) (by decide)⟩

/-! ## C6 — expired one-time tokens are logically absent -/

theorem preSave_clears_expired_verify (v : User) (e now : Nat)
    (he : v.emailVerifyExpires = some e) (hlt : e < now) :
    (preSave v now).emailVerifyToken = none ∧
    (preSave v now).emailVerifyExpires = none := by
  unfold preSave
  dsimp only
  rw [he]
  split <;> split <;> simp_all [tokenExpired, hlt]

theorem preSave_clears_expired_reset (v : User) (e now : Nat)
    (he : v.passwordResetExpires = some e) (hlt : e < now) :
    (preSave v now).passwordResetToken = none ∧
    (preSave v now).passwordResetExpires = none := by
  unfold preSave
  dsimp only
  split <;> split <;> simp_all [tokenExpired, hlt, he]

/-- C6: a one-time token whose expiry lies strictly in the past is treated
by the lookup routes exactly like a token nobody holds — both the expired
case (first and third conjuncts) and the truly-nonexistent case (second
conjunct) produce the identical invalid-or-expired failure with the store
unchanged, because the Mongo lookup filters on expiry-in-the-future; and
the pre-save hook lazily clears an expired token pair on the account's
next save (last two conjuncts). -/
theorem expired_token_absent :
    (∀ (db : DB) (t : String) (now : Nat),
      (∀ v ∈ db.users, v.emailVerifyToken = some t →
        ∃ e, v.emailVerifyExpires = some e ∧ e < now) →
      verifyEmail db t now = (.invalidOrExpired, db)) ∧
    (∀ (db : DB) (t : String) (now : Nat),
      (∀ v ∈ db.users, v.emailVerifyToken ≠ some t) →
      verifyEmail db t now = (.invalidOrExpired, db)) ∧
    (∀ (hash : String → String) (db : DB) (t p : String) (now : Nat),
      passwordPolicy p = true →
      (∀ v ∈ db.users, v.passwordResetToken = some t →
        ∃ e, v.passwordResetExpires = some e ∧ e < now) →
      resetPassword hash db t p now = (.invalidOrExpired, db)) ∧
    (∀ (v : User) (e now : Nat), v.emailVerifyExpires = some e → e < now →
      (preSave v now).emailVerifyToken = none ∧
      (preSave v now).emailVerifyExpires = none) ∧
    (∀ (v : User) (e now : Nat), v.passwordResetExpires = some e → e < now →
      (preSave v now).passwordResetToken = none ∧
      (preSave v now).passwordResetExpires = none) := by
  refine ⟨fun db t now hexp => ?_, fun db t now habs => ?_,
    fun hash db t p now hp hexp => ?_,
    preSave_clears_expired_verify, preSave_clears_expired_reset⟩
  · have hfind : findUserByVerifyToken db t now = none := by
      unfold findUserByVerifyToken
      rw [List.find?_eq_none]
      intro x hx
      by_cases hxt : x.emailVerifyToken = some t
      · obtain ⟨e, he, hlt⟩ := hexp x hx hxt
        simp [hxt, he, tokenLive, Nat.not_lt.mpr (Nat.le_of_lt hlt)]
      · simp [hxt]
    unfold verifyEmail
    rw [hfind]
  · have hfind : findUserByVerifyToken db t now = none := by
      unfold findUserByVerifyToken
      rw [List.find?_eq_none]
      intro x hx
      simp [habs x hx]
    unfold verifyEmail
    rw [hfind]
  · have hfind : findUserByResetToken db t now = none := by
      unfold findUserByResetToken
      rw [List.find?_eq_none]
      intro x hx
      by_cases hxt : x.passwordResetToken = some t
      · obtain ⟨e, he, hlt⟩ := hexp x hx hxt
        simp [hxt, he, tokenLive, Nat.not_lt.mpr (Nat.le_of_lt hlt)]
      · simp [hxt]
    unfold resetPassword
    rw [hp, hfind]
    simp

/-- Fixture for C6: an account whose two one-time tokens both expired at
time 10. -/
def expiredUser : User :=
  { mkUser 1 with
    isEmailVerified := false,
    emailVerifyToken := some "vt",
    emailVerifyExpires := some 10,
    passwordResetToken := some "rt",
    passwordResetExpires := some 10 }

def dbExpired : DB := { users := [expiredUser], posts := [], comments := [] }

theorem expired_token_absent_witness :
    verifyEmail dbExpired "vt" 50 = (.invalidOrExpired, dbExpired) ∧
    verifyEmail dbExpired "gone" 50 = (.invalidOrExpired, dbExpired) ∧
    resetPassword idHash dbExpired "rt" "newpw1" 50 =
      (.invalidOrExpired, dbExpired) ∧
    ((preSave expiredUser 50).emailVerifyToken = none ∧
      (preSave expiredUser 50).emailVerifyExpires = none) ∧
    ((preSave expiredUser 50).passwordResetToken = none ∧
      (preSave expiredUser 50).passwordResetExpires = none) :=
  ⟨expired_token_absent.1 dbExpired "vt" 50 (by decide),
   expired_token_absent.2.1 dbExpired "gone" 50 (by decide),
   expired_token_absent.2.2.1 idHash dbExpired "rt" "newpw1" 50 (by decide)
     (by decide),
   expired_token_absent.2.2.2.1 expiredUser 10 50 (by decide) (by decide),
   expired_token_absent.2.2.2.2 expiredUser 10 50 (by decide) (by decide)⟩

/-! ## C10 — changePassword does not touch a live reset token -/

theorem preSave_password (v : User) (now : Nat) :
    (preSave v now).password = v.password := by
  unfold preSave
  dsimp only
  split <;> split <;> rfl

theorem preSave_changedAt (v : User) (now : Nat) :
    (preSave v now).passwordChangedAt = v.passwordChangedAt := by
  unfold preSave
  dsimp only
  split <;> split <;> rfl

/-- C10: a successful change-password (valid session, correct current
password, policy-conforming new password) rewrites the password hash and
stamps `passwordChangedAt`, but leaves a password-reset token whose expiry
is still in the future exactly in place — the handler never touches the
reset fields and the pre-save hook only clears expired ones — so the
previously issued reset token can still be used afterwards to reset the
password again. -/
theorem changePassword_preserves_reset_token
    (compare : String → String → Bool) (hash : String → String) (db : DB)
    (userId : Nat) (cur new : String) (now : Nat) (u : User) (tok : String)
    (e : Nat)
    (hu : db.users.find? (fun x => x.id == userId) = some u)
    (hcur : compare cur u.password = true)
    (hlen : ¬ new.data.length < 6)
    (hpol : (new.data.any Char.isAlpha && new.data.any Char.isDigit) = true)
    (htok : u.passwordResetToken = some tok)
    (hexp : u.passwordResetExpires = some e)
    (hlive : now < e) :
    ∃ u', changePassword compare hash db userId cur new now =
        (.success u', { db with users := setUser db.users u' }) ∧
      u'.password = hash new ∧
      u'.passwordChangedAt = some now ∧
      u'.passwordResetToken = some tok ∧
      u'.passwordResetExpires = some e ∧
      ∀ (p' : String) (now' : Nat), now' < e → passwordPolicy p' = true →
        ∃ w db2, resetPassword hash
            { db with users := setUser db.users u' } tok p' now' =
          (.success w, db2) := by
  set x : User := { u with password := hash new, passwordChangedAt := some now }
    with hxdef
  have hnotexp : tokenExpired x.passwordResetExpires now = false := by
    show tokenExpired u.passwordResetExpires now = false
    rw [hexp]
    simp [tokenExpired, Nat.not_lt.mpr (Nat.le_of_lt hlive)]
  refine ⟨preSave x now, ?_, ?_, ?_, ?_, ?_, ?_⟩
  · unfold changePassword
    rw [hu]
    simp [hcur, hlen, hpol, hxdef]
    exact Nat.le_of_not_lt hlen
  · rw [preSave_password]
  · rw [preSave_changedAt]
  · rw [(preSave_reset_preserved _ now hnotexp).1]
    exact htok
  · rw [(preSave_reset_preserved _ now hnotexp).2]
    exact hexp
  · intro p' now' hlive' hp'
    have hqid : (preSave x now).id = u.id := by
      rw [preSave_id]
    have hmem : preSave x now ∈ setUser db.users (preSave x now) := by
      unfold setUser
      refine List.mem_map.mpr ⟨u, List.mem_of_find?_eq_some hu, ?_⟩
      rw [hqid]
      simp
    have hq : ((preSave x now).passwordResetToken == some tok &&
        tokenLive (preSave x now).passwordResetExpires now') = true := by
      rw [(preSave_reset_preserved _ now hnotexp).1,
        (preSave_reset_preserved _ now hnotexp).2]
      show (u.passwordResetToken == some tok &&
        tokenLive u.passwordResetExpires now') = true
      rw [htok, hexp]
      simp [tokenLive, hlive']
    have hsome : (findUserByResetToken
        { db with users := setUser db.users (preSave x now) }
        tok now').isSome = true := by
      unfold findUserByResetToken
      exact List.find?_isSome.mpr ⟨_, hmem, hq⟩
    obtain ⟨w, hw⟩ := Option.isSome_iff_exists.mp hsome
    unfold resetPassword
    rw [hp', hw]
    exact ⟨_, _, rfl⟩

theorem changePassword_preserves_reset_token_witness :
    ∃ u', changePassword eqCompare idHash dbToken 1 "pw1" "new2pw" 5 =
        (.success u', { dbToken with users := setUser dbToken.users u' }) ∧
      u'.password = idHash "new2pw" ∧
      u'.passwordChangedAt = some 5 ∧
      u'.passwordResetToken = some "rt" ∧
      u'.passwordResetExpires = some 100 ∧
      ∀ (p' : String) (now' : Nat), now' < 100 → passwordPolicy p' = true →
        ∃ w db2, resetPassword idHash
            { dbToken with users := setUser dbToken.users u' } "rt" p' now' =
          (.success w, db2) :=
  changePassword_preserves_reset_token eqCompare idHash dbToken 1 "pw1"
    "new2pw" 5 tokenUser "rt" 100 (by decide) (by decide) (by decide)
    (by decide) (by decide) (by decide) (by decide)

/-! ## C8 — approved-only, newest-first, paginate-then-build-tree -/

theorem buildCommentTree_roots (cs : List Comment) :
    ∀ n ∈ buildCommentTree cs, n.head.parentComment = none ∧ n.head ∈ cs := by
  intro n hn
  unfold buildCommentTree at hn
  obtain ⟨c, hc, rfl⟩ := List.mem_map.mp hn
  obtain ⟨hcmem, hcroot⟩ := List.mem_filter.mp hc
  rw [buildNode_head]
  exact ⟨by simpa using hcroot, hcmem⟩

theorem approvedPage_sublist (db : DB) (postId page limit : Nat) :
    (approvedPage db postId page limit).Sublist
      ((db.comments.filter
        (fun c => c.post == postId && c.isApproved)).insertionSort newestFirst) := by
  unfold approvedPage
  exact (List.take_sublist _ _).trans (List.drop_sublist _ _)

/-- Fixture for C8: post 1 carrying an approved root comment A (id 1,
created at 10) and an approved reply B (id 2, parent A, created at 20). -/
def dbScenario : DB :=
  { users := [], posts := [{ id := 1, commentCount := 2 }],
    comments := [mkComment 1 1 none true 10, mkComment 2 1 (some 1) true 20] }

/-- The same page before moderation: both comments still unapproved. -/
def dbScenarioPending : DB :=
  { users := [], posts := [{ id := 1, commentCount := 2 }],
    comments := [mkComment 1 1 none false 10, mkComment 2 1 (some 1) false 20] }

/-- C8: for an existing post, `listForPost` applies pagination to the flat
approved set before tree assembly: the returned forest is built from a
flat page that contains only approved comments of that post, sorted
newest-first by creation time, and the tree builder emits only root-level
entries whose comment is in the page (so a child whose parent is missing
from the page appears under no root and is dropped — last closed conjunct,
where the page holds only the reply).  In the concrete scenario, with
nothing approved the root list is empty, and after approving root A and
reply B the result is one root (A) containing one reply (B). -/
theorem listForPost_spec (db : DB) (postId page limit : Nat) (p : Post)
    (hp : db.posts.find? (fun x => x.id == postId) = some p) :
    ∃ pageList,
      listForPost db postId page limit = some (buildCommentTree pageList) ∧
      pageList = approvedPage db postId page limit ∧
      (∀ c ∈ pageList, c.post = postId ∧ c.isApproved = true) ∧
      List.Sorted newestFirst pageList ∧
      (∀ n ∈ buildCommentTree pageList,
        n.head.parentComment = none ∧ n.head ∈ pageList) ∧
      (listForPost dbScenarioPending 1 1 20 = some [] ∧
        listForPost dbScenario 1 1 20 =
          some [CommentNode.node (mkComment 1 1 none true 10)
            [CommentNode.node (mkComment 2 1 (some 1) true 20) []]] ∧
        buildCommentTree [mkComment 2 1 (some 1) true 20] = []) := by
  refine ⟨approvedPage db postId page limit, ?_, rfl, ?_, ?_,
    buildCommentTree_roots _, rfl, rfl, rfl⟩
  · unfold listForPost
    rw [hp]
  · intro c hc
    have hc2 : c ∈ (db.comments.filter
        (fun c => c.post == postId && c.isApproved)).insertionSort newestFirst :=
      (approvedPage_sublist db postId page limit).mem hc
    have hc3 := List.mem_filter.mp ((List.mem_insertionSort newestFirst).mp hc2)
    have hb := hc3.2
    simp only [Bool.and_eq_true, beq_iff_eq] at hb
    exact hb
  · have hs : List.Sorted newestFirst ((db.comments.filter
        (fun c => c.post == postId && c.isApproved)).insertionSort newestFirst) :=
      List.sorted_insertionSort newestFirst _
    exact hs.sublist (approvedPage_sublist db postId page limit)

theorem listForPost_spec_witness :
    ∃ pageList,
      listForPost dbScenario 1 1 20 = some (buildCommentTree pageList) ∧
      pageList = approvedPage dbScenario 1 1 20 ∧
      (∀ c ∈ pageList, c.post = 1 ∧ c.isApproved = true) ∧
      List.Sorted newestFirst pageList ∧
      (∀ n ∈ buildCommentTree pageList,
        n.head.parentComment = none ∧ n.head ∈ pageList) ∧
      (listForPost dbScenarioPending 1 1 20 = some [] ∧
        listForPost dbScenario 1 1 20 =
          some [CommentNode.node (mkComment 1 1 none true 10)
            [CommentNode.node (mkComment 2 1 (some 1) true 20) []]] ∧
        buildCommentTree [mkComment 2 1 (some 1) true 20] = []) :=
  listForPost_spec dbScenario 1 1 20 { id := 1, commentCount := 2 } (by decide)
